import Mathlib

/-!
Verification of the parking-management system (car_entry.py, car_exit.py,
process_payment.py, payment_success.py, database.py) against its
natural-language specification.

The ledger (MySQL `vehicles` table / `plates_log.csv` journal) is embedded as
a chronological list of records.  Timestamps are seconds as naturals; the
source compares `YYYY-MM-DD HH:MM:SS` strings, whose lexicographic order
agrees with chronological order, and MySQL DATETIME values.  Money amounts
are naturals (RWF).
-/

namespace Parking

/-- Ledger actions, per the `action` column of the `vehicles` table and the
`Action` field of `plates_log.csv` (`entry`, `exit`, `unauthorized_exit`). -/
inductive Action where
  | entry
  | exit
  | unauthorizedExit
deriving DecidableEq, Repr

/-- One ledger row: `(plate_number, action, payment_status, timestamp, amount_due)`,
the shared shape of the `vehicles` table and each `plates_log.csv` row. -/
structure Rec where
  plate : String
  action : Action
  paid : Bool
  timestamp : Nat
  amount : Nat
deriving DecidableEq, Repr

/-- The spec's derived vehicle state (spec section 3). -/
inductive VState where
  | absent
  | parkedUnpaid
  | parkedPaid
deriving DecidableEq, Repr

/-- Result of `check_plate_status` in car_entry.py: `'entry'` (unclosed unpaid
entry found), `'exit'` (most recent relevant record is an exit), or none. -/
inductive PlateStatus where
  | entry
  | exit
deriving DecidableEq, Repr

/-- A ledger is chronologically ordered: timestamps strictly increase along the
append order.  This is the data-model invariant of spec section 3 (records are
totally ordered by `occurred_at`); strictness makes the SQL
`ORDER BY timestamp DESC LIMIT 1` queries deterministic. -/
def ChronoOrdered (l : List Rec) : Prop :=
  l.Pairwise (fun a b => a.timestamp < b.timestamp)

instance (l : List Rec) : Decidable (ChronoOrdered l) := by
  unfold ChronoOrdered; infer_instance

/-! ## BillingEngine (payment_success.py `calculate_payment_amount`,
process_payment.py `find_unpaid_entry` recomputation) -/

/-- RATE_PER_HOUR = 500 (process_payment.py, car_exit.py, payment_success.py). -/
def RATE_PER_HOUR : Nat := 500

/-- The billing computation with the rate factored out as a parameter:
`hours = max(1, int(duration.total_seconds() / 3600))`, fee = hours * rate.
Python's `int` truncates, which on the nonnegative durations considered here
is floor division. -/
def fee (entryTime now rate : Nat) : Nat :=
  max 1 ((now - entryTime) / 3600) * rate

/-- payment_success.py `calculate_payment_amount`: the fee at the module's
fixed RATE_PER_HOUR.  The current time is an explicit parameter standing for
`datetime.now()`. -/
def calculate_payment_amount (entryTime now : Nat) : Nat :=
  fee entryTime now RATE_PER_HOUR

/-! ## Plate validation (car_entry.py / car_exit.py `validate_plate`) -/

/-- PLATE_LENGTH = 7 (car_entry.py, car_exit.py). -/
def PLATE_LENGTH : Nat := 7

/-- Does the character list start with the two characters `RA`? -/
def startsRA (l : List Char) : Bool :=
  match l with
  | a :: b :: _ => a == 'R' && b == 'A'
  | _ => false

/-- Index of the first occurrence of the substring `RA`, as Python's
`text.find("RA")`; `none` when absent (the source's `-1` / the
`"RA" not in text` guard). -/
def findRA : List Char → Option Nat
  | [] => none
  | c :: cs =>
    if startsRA (c :: cs) then some 0 else (findRA cs).map (fun i => i + 1)

/-- Uppercase Latin letter, as matched by the source regex class `A-Z`. -/
def isUpperAlpha (c : Char) : Bool := 'A' ≤ c && c ≤ 'Z'

/-- ASCII digit, as matched by `0-9` and by `str.isdigit` on the OCR output. -/
def isDigitCh (c : Char) : Bool := '0' ≤ c && c ≤ '9'

/-- A character allowed after the RA prefix by the regex `RA[A-Z0-9]{5}`. -/
def isUpperAlnum (c : Char) : Bool := isUpperAlpha c || isDigitCh c

/-- The check `re.fullmatch(r'RA[A-Z0-9]{5}', candidate)` as a Boolean. -/
def regexRA5 (l : List Char) : Bool :=
  match l with
  | a :: b :: rest => a == 'R' && b == 'A' && (rest.length == 5 && rest.all isUpperAlnum)
  | _ => false

/-- car_entry.py / car_exit.py `validate_plate`: find the first `RA`, slice a
7-character candidate from it (Python slicing clamps at the end of the
string), require the full regex match and at least two digits after the
prefix; return the candidate on success. -/
def validate_plate (text : List Char) : Option (List Char) :=
  match findRA text with
  | none => none
  | some idx =>
    let candidate := (text.drop idx).take PLATE_LENGTH
    if candidate.length ≠ PLATE_LENGTH then none
    else if regexRA5 candidate = false then none
    else if ((candidate.drop 2).filter isDigitCh).length < 2 then none
    else some candidate

/-- The acceptance condition exactly as claim C6 words it, for comparison with
`validate_plate`: length 7, prefix `RA`, alphanumeric tail (the OCR alphabet
`A-Z0-9`), and at least 2 digits among the trailing 5 characters. -/
def specAccept (text : List Char) : Prop :=
  text.length = 7 ∧ startsRA text = true ∧
    (∀ c ∈ text.drop 2, isUpperAlnum c = true) ∧
    2 ≤ ((text.drop 2).filter isDigitCh).length

instance (text : List Char) : Decidable (specAccept text) := by
  unfold specAccept; infer_instance

/-! ## ActivityLedger queries

The SQL queries on the `vehicles` table and the reverse CSV scans of
`plates_log.csv` are embedded as functions on the chronological record list.
`ORDER BY timestamp DESC LIMIT 1` becomes picking the maximal-timestamp
element (first seen wins a tie, which cannot occur on a `ChronoOrdered`
ledger). -/

/-- One comparison step of the maximal-timestamp selection. -/
def maxStep (acc : Option Rec) (r : Rec) : Option Rec :=
  match acc with
  | none => some r
  | some a => if a.timestamp < r.timestamp then some r else some a

/-- SQL `ORDER BY timestamp DESC LIMIT 1` over a result set: the element with
the greatest timestamp. -/
def maxByTs (l : List Rec) : Option Rec :=
  l.foldl maxStep none

/-- The plate's most recent row, per the query in car_entry.py
`check_plate_status`: `WHERE plate_number = %s ORDER BY timestamp DESC LIMIT 1`. -/
def lastRecOf (records : List Rec) (p : String) : Option Rec :=
  maxByTs (records.filter (fun r => decide (r.plate = p)))

/-- The reverse scan of car_entry.py `check_plate_status_csv`: walk the rows
newest first; at the first row of this plate that is an unpaid entry return
`'entry'`, at the first that is an exit return `'exit'`; rows of other plates,
paid entries, and `unauthorized_exit` rows are skipped (the loop has no
terminating branch for them). -/
def statusScan (p : String) : List Rec → Option PlateStatus
  | [] => none
  | r :: rs =>
    if r.plate = p then
      if r.action = Action.entry ∧ r.paid = false then some PlateStatus.entry
      else if r.action = Action.exit then some PlateStatus.exit
      else statusScan p rs
    else statusScan p rs

/-- car_entry.py `check_plate_status_csv`: the scan over `reversed(records)`. -/
def check_plate_status_csv (records : List Rec) (p : String) : Option PlateStatus :=
  statusScan p records.reverse

/-- car_entry.py `check_plate_status` with the database reachable: look at the
plate's most recent `vehicles` row; an unpaid entry means `'entry'`, an exit
means `'exit'`; in every other case (no row, paid entry, unauthorized exit)
fall through to the CSV check. -/
def check_plate_status (dbRecs csvRecs : List Rec) (p : String) : Option PlateStatus :=
  match lastRecOf dbRecs p with
  | some r =>
    if r.action = Action.entry ∧ r.paid = false then some PlateStatus.entry
    else if r.action = Action.exit then some PlateStatus.exit
    else check_plate_status_csv csvRecs p
  | none => check_plate_status_csv csvRecs p

/-- The correlated subquery `EXISTS (SELECT 1 FROM vehicles v2 WHERE
v2.plate_number = plate AND v2.action = 'exit' AND v2.timestamp > r.timestamp)`
used by the entry-lookup queries. -/
def laterExitTs (records : List Rec) (p : String) (r : Rec) : Bool :=
  records.any (fun e =>
    decide (e.plate = p ∧ e.action = Action.exit ∧ r.timestamp < e.timestamp))

/-- Row filter of the paid-entry query shared by car_exit.py
`check_exit_requirements` and `process_exit`: a paid entry of the plate with
no later exit row. -/
def qualPaidB (records : List Rec) (p : String) (r : Rec) : Bool :=
  decide (r.plate = p ∧ r.action = Action.entry ∧ r.paid = true) &&
    !(laterExitTs records p r)

/-- Row filter of the unpaid-entry query shared by car_exit.py `process_exit`,
process_payment.py `find_unpaid_entry` and payment_success.py
`get_unpaid_entry`: an unpaid entry of the plate with no later exit row. -/
def qualUnpaidB (records : List Rec) (p : String) (r : Rec) : Bool :=
  decide (r.plate = p ∧ r.action = Action.entry ∧ r.paid = false) &&
    !(laterExitTs records p r)

/-- The paid-entry SQL query of car_exit.py (`ORDER BY timestamp DESC LIMIT 1`
over the qualifying rows). -/
def findPaidEntryDB (records : List Rec) (p : String) : Option Rec :=
  maxByTs (records.filter (qualPaidB records p))

/-- The unpaid-entry SQL query of car_exit.py / process_payment.py /
payment_success.py. -/
def findUnpaidEntryDB (records : List Rec) (p : String) : Option Rec :=
  maxByTs (records.filter (qualUnpaidB records p))

/-- car_exit.py `check_exit_requirements` (database path): the entry time of
the most recent paid entry with no later exit, when one exists. -/
def check_exit_requirements_db (records : List Rec) (p : String) : Option Nat :=
  (findPaidEntryDB records p).map (fun r => r.timestamp)

/-- The loop of car_exit.py `check_exit_requirements_csv`: walk
`reversed(records)` carrying the positional suffix `after` of rows that come
later in the file; at each paid entry of the plate, test for a later exit only
among the positionally later rows (`records[len(records)-i:]`), and keep
scanning older rows when one is found. -/
def exitScanAux (p : String) : List Rec → List Rec → Option Rec
  | [], _ => none
  | r :: rs, after =>
    if r.plate = p ∧ r.action = Action.entry ∧ r.paid = true then
      if after.any (fun e =>
          decide (e.plate = p ∧ e.action = Action.exit ∧ r.timestamp < e.timestamp)) then
        exitScanAux p rs (r :: after)
      else some r
    else exitScanAux p rs (r :: after)

/-- car_exit.py `check_exit_requirements_csv`: the timestamp of the found
entry, when any. -/
def check_exit_requirements_csv (records : List Rec) (p : String) : Option Nat :=
  (exitScanAux p records.reverse []).map (fun r => r.timestamp)

/-- car_exit.py `process_exit` (database path).  Result:
`(new ledger, gate opened, return value)`.
With a paid unclosed entry: append an `exit` row copying the entry's
`payment_status` and `amount_due`, open the gate, return True.
Otherwise with an unpaid unclosed entry: append an `unauthorized_exit` row
(`payment_status` False, `amount_due` left at the schema default 0 / written
as `0.00` in the CSV), sound the buzzer only, return False.
Otherwise: no row appended, return False. -/
def process_exit_db (records : List Rec) (p : String) (t : Nat) :
    List Rec × Bool × Bool :=
  match findPaidEntryDB records p with
  | some e => (records ++ [⟨p, Action.exit, e.paid, t, e.amount⟩], true, true)
  | none =>
    match findUnpaidEntryDB records p with
    | some _ => (records ++ [⟨p, Action.unauthorizedExit, false, t, 0⟩], false, false)
    | none => (records, false, false)

/-! ## Derived vehicle state (spec section 3) -/

/-- Scan newest first for the plate's most recent record; an entry record
means parked (paid or unpaid by its flag), an exit or unauthorized-exit record
means the most recent entry has a later closing record, hence absent. -/
def stateScan (p : String) : List Rec → VState
  | [] => VState.absent
  | r :: rs =>
    if r.plate = p then
      match r.action with
      | Action.entry => if r.paid then VState.parkedPaid else VState.parkedUnpaid
      | _ => VState.absent
    else stateScan p rs

/-- The spec's `current_state` derivation (section 3), computed on the
chronological ledger. -/
def currentState (records : List Rec) (p : String) : VState :=
  stateScan p records.reverse

/-- The plate's most recent `entry` record (newest first). -/
def mostRecentEntryOf (records : List Rec) (p : String) : Option Rec :=
  records.reverse.find? (fun r => decide (r.plate = p ∧ r.action = Action.entry))

/-! ## Entry workflow (car_entry.py `main` + `log_action`) -/

/-- The entry decision of car_entry.py `main` for a confirmed plate, with both
backends holding the same ledger: status `'entry'` sounds the buzzer and
appends nothing; status none or `'exit'` appends an entry row
(`payment_status` 0, `amount_due` 0, per `log_action`) and opens the gate.
Result: `(new ledger, gate opened)`. -/
def entry_step (records : List Rec) (p : String) (now : Nat) : List Rec × Bool :=
  match check_plate_status records records p with
  | some PlateStatus.entry => (records, false)
  | _ => (records ++ [⟨p, Action.entry, false, now, 0⟩], true)

/-! ## DualStoreCoordinator state (database.py + plates_log.csv) -/

/-- The two persistence backends: the relational `vehicles` table (with its
reachability flag) and the flat-file journal `plates_log.csv`. -/
structure Stores where
  dbOk : Bool
  dbRecs : List Rec
  csvRecs : List Rec
deriving DecidableEq, Repr

/-- database.py `Database.update_payment`: the plate's latest unpaid entry row
(`ORDER BY timestamp DESC LIMIT 1`, no later-exit subquery here) gets
`payment_status = TRUE` and `amount_due = amount` in place; `none` when no
such row exists. -/
def update_payment (recs : List Rec) (p : String) (amount : Nat) : Option (List Rec) :=
  let quals := recs.enum.filter (fun ia =>
    decide (ia.2.plate = p ∧ ia.2.action = Action.entry ∧ ia.2.paid = false))
  let pick := quals.foldl
    (fun acc ia =>
      match acc with
      | none => some ia
      | some ja => if ja.2.timestamp < ia.2.timestamp then some ia else some ja)
    none
  match pick with
  | none => none
  | some (i, r) => some (recs.set i { r with paid := true, amount := amount })

/-- The CSV fallback of process_payment.py `mark_entry_as_paid`: among the
plate's unpaid entry rows with no positionally later exit of a greater
timestamp, pick the newest by timestamp and set `Payment Status` to `'1'` and
`Amount Due` to the paid amount, rewriting the file; `none` when no unpaid
entry qualifies (the function returns False). -/
def csvMarkPaid (recs : List Rec) (p : String) (amount : Nat) : Option (List Rec) :=
  let quals := recs.enum.filter (fun ia =>
    decide (ia.2.plate = p ∧ ia.2.action = Action.entry ∧ ia.2.paid = false) &&
      !((recs.drop (ia.1 + 1)).any (fun e =>
        decide (e.plate = p ∧ e.action = Action.exit ∧ ia.2.timestamp < e.timestamp))))
  let pick := quals.foldl
    (fun acc ia =>
      match acc with
      | none => some ia
      | some ja => if ja.2.timestamp < ia.2.timestamp then some ia else some ja)
    none
  match pick with
  | none => none
  | some (i, r) => some (recs.set i { r with paid := true, amount := amount })

/-- process_payment.py `mark_entry_as_paid`: try `db.update_payment` first and
return True at once when it succeeds — the CSV journal is not touched on that
path.  When the store is reachable but holds no matching row (the update
returns False) the CSV fallback runs; when the store is unreachable the
raised exception is caught by the same handler that guards the CSV read, and
the function returns False without touching the journal either.  Result:
`(success, new stores)`. -/
def mark_entry_as_paid (s : Stores) (p : String) (amount : Nat) : Bool × Stores :=
  if s.dbOk then
    match update_payment s.dbRecs p amount with
    | some recs2 => (true, { s with dbRecs := recs2 })
    | none =>
      match csvMarkPaid s.csvRecs p amount with
      | some csv2 => (true, { s with csvRecs := csv2 })
      | none => (false, s)
  else (false, s)

/-! ## Payment workflow (process_payment.py main loop) -/

/-- The serial replies and commands the payment loop writes. -/
inductive Reply where
  | errorInvalidData
  | errorNoEntry
  | errorInsufficient
  | payCmd (amount : Nat)
  | paymentSuccess
  | errorDbUpdate
deriving DecidableEq, Repr

/-- process_payment.py `find_unpaid_entry` with the database reachable: the
plate's most recent unpaid entry with no later exit, as
`(entry timestamp, stored amount_due)`.  (The CSV fallback only runs when this
query returns no row, and on a shared ledger it then finds none either.) -/
def find_unpaid_entry (records : List Rec) (p : String) : Option (Nat × Nat) :=
  (findUnpaidEntryDB records p).map (fun r => (r.timestamp, r.amount))

/-- One iteration of the process_payment.py main loop after a well-formed
`PLATE:...;BAL:...` line: look up the unpaid entry, refuse with
`ERROR:INSUFFICIENT` when the balance is below the amount due, otherwise send
the `PAY` command and update the stores only when the device answers `DONE`.
Result: `(new stores, serial replies in order)`. -/
def payment_iteration (s : Stores) (p : String) (balance : Nat) (response : String) :
    Stores × List Reply :=
  match find_unpaid_entry s.dbRecs p with
  | none => (s, [Reply.errorNoEntry])
  | some (_, amountDue) =>
    if balance < amountDue then (s, [Reply.errorInsufficient])
    else
      if response = "DONE" then
        match mark_entry_as_paid s p amountDue with
        | (true, s2) => (s2, [Reply.payCmd amountDue, Reply.paymentSuccess])
        | (false, s2) => (s2, [Reply.payCmd amountDue, Reply.errorDbUpdate])
      else (s, [Reply.payCmd amountDue])

/-! ## GateController (car_entry.py / car_exit.py `control_gate`) -/

/-- Gate commands, sent as `b'1'` (open), `b'0'` (close), `b'2'` (buzzer). -/
inductive Cmd where
  | openGate
  | closeGate
  | buzzer
deriving DecidableEq, Repr

/-- Gate control `control_gate(arduino, action)`: with no channel attached (simulation) the
intent of the single requested command is logged and True returned — nothing
else happens.  With a channel, the command byte is written (the device's
acknowledgment, `responds`, is only printed and never branches), and for
`open` a close byte follows unconditionally after the 15 s hold.  Result:
`(commands sent or logged, in order, return value)`. -/
def control_gate (hasChannel responds : Bool) (cmd : Cmd) : List Cmd × Bool :=
  if hasChannel = false then ([cmd], true)
  else
    match cmd with
    | Cmd.openGate => ([Cmd.openGate, Cmd.closeGate], true)
    | c => ([c], true)

/-- The gate phase of car_entry.py `log_action` for an entry: call
`control_gate('open')`, and when it returns True, hold 15 s and call
`control_gate('close')` as a separate command. -/
def entry_gate_phase (hasChannel responds : Bool) : List Cmd :=
  let r1 := control_gate hasChannel responds Cmd.openGate
  if r1.2 then r1.1 ++ (control_gate hasChannel responds Cmd.closeGate).1 else r1.1

/-! ## PlateConfirmer buffer (car_entry.py `main` capture loop) -/

/-- One comparison step of the majority vote: the candidate's occurrence count
in the whole buffer `l` is compared with the best count so far. -/
def mcStep (l : List String) (acc : Option (String × Nat)) (x : String) :
    Option (String × Nat) :=
  match acc with
  | none => some (x, l.count x)
  | some yc => if yc.2 < l.count x then some (x, l.count x) else some yc

/-- Majority vote `Counter(buffer).most_common(1)[0]`: the value with the greatest
occurrence count and that count; an earlier-seen value wins ties, matching
Counter's insertion-ordered tie-breaking. -/
def mostCommon (l : List String) : Option (String × Nat) :=
  l.foldl (mcStep l) none

/-- The mutable state of the entry capture loop: the ledger, the plate buffer,
and the duplicate-suppression pair `last_detected_plate` / `last_action_time`. -/
structure EntryLoopState where
  records : List Rec
  buf : List String
  lastPlate : Option String
  lastTime : Nat
deriving DecidableEq, Repr

/-- The initial capture-loop state over a given ledger: empty buffer,
`last_detected_plate = None`, `last_action_time = 0`. -/
def initLoopState (records : List Rec) : EntryLoopState :=
  ⟨records, [], none, 0⟩

/-- One validated detection in car_entry.py `main`: append the plate to
`plate_buffer`; once the buffer holds at least 3 entries take the most common
plate, and when its count is at least 3 and it differs from the last processed
plate or the 5 s cooldown elapsed, run the entry decision (`entry_step`) and
clear the buffer — `last_detected_plate`/`last_action_time` update only when
entry was allowed.  In every other case the buffer is left to grow. -/
def entryLoopStep (st : EntryLoopState) (plate : String) (now : Nat) : EntryLoopState :=
  if 3 ≤ (st.buf ++ [plate]).length then
    match mostCommon (st.buf ++ [plate]) with
    | some (mc, cnt) =>
      if 3 ≤ cnt ∧ (some mc ≠ st.lastPlate ∨ 5 < now - st.lastTime) then
        match entry_step st.records mc now with
        | (recs2, true) => ⟨recs2, [], some mc, now⟩
        | (recs2, false) => ⟨recs2, [], st.lastPlate, st.lastTime⟩
      else ⟨st.records, st.buf ++ [plate], st.lastPlate, st.lastTime⟩
    | none => ⟨st.records, st.buf ++ [plate], st.lastPlate, st.lastTime⟩
  else ⟨st.records, st.buf ++ [plate], st.lastPlate, st.lastTime⟩

/-- Run the capture loop over a sequence of validated detections, each paired
with its observation time. -/
def runEntryLoop (records : List Rec) (obs : List (String × Nat)) : EntryLoopState :=
  obs.foldl (fun st o => entryLoopStep st o.1 o.2) (initLoopState records)

/-! ## Helper lemmas about the maximal-timestamp selection -/

theorem foldl_maxStep_some (l : List Rec) :
    ∀ a : Rec, ∃ c, l.foldl maxStep (some a) = some c := by
  induction l with
  | nil => exact fun a => ⟨a, rfl⟩
  | cons b l2 ih =>
    intro a
    simp only [List.foldl_cons, maxStep]
    split
    · exact ih b
    · exact ih a

theorem foldl_maxStep_sorted (l : List Rec) :
    ∀ a : Rec, (a :: l).Pairwise (fun x y => x.timestamp < y.timestamp) →
      l.foldl maxStep (some a) = (a :: l).getLast? := by
  induction l with
  | nil => intro a _; rfl
  | cons b l2 ih =>
    intro a hp
    have hab : a.timestamp < b.timestamp :=
      (List.pairwise_cons.mp hp).1 b (List.mem_cons_self b l2)
    have hp2 : (b :: l2).Pairwise (fun x y => x.timestamp < y.timestamp) :=
      (List.pairwise_cons.mp hp).2
    simp only [List.foldl_cons, maxStep, if_pos hab]
    rw [ih b hp2]
    exact List.getLast?_cons_cons.symm

theorem maxByTs_sorted (l : List Rec) (h : ChronoOrdered l) :
    maxByTs l = l.getLast? := by
  cases l with
  | nil => rfl
  | cons a l2 => exact foldl_maxStep_sorted l2 a h

theorem chrono_filter {records : List Rec} (hc : ChronoOrdered records)
    (q : Rec → Bool) : ChronoOrdered (records.filter q) :=
  List.Pairwise.sublist (List.filter_sublist records) hc

theorem maxByTs_eq_of_max {F : List Rec} {e : Rec} (hp : ChronoOrdered F)
    (he : e ∈ F) (hmax : ∀ x ∈ F, x ≠ e → x.timestamp < e.timestamp) :
    maxByTs F = some e := by
  rcases List.eq_nil_or_concat F with rfl | ⟨G, z, rfl⟩
  · cases he
  · rw [List.concat_eq_append] at hp he hmax ⊢
    rw [maxByTs_sorted _ hp, List.getLast?_concat]
    by_cases hz : z = e
    · rw [hz]
    · exfalso
      have hzmem : z ∈ G ++ [z] := List.mem_append_right G (List.mem_singleton.mpr rfl)
      have hzlt : z.timestamp < e.timestamp := hmax z hzmem hz
      rcases List.mem_append.mp he with heG | heZ
      · have := (List.pairwise_append.mp hp).2.2 e heG z (List.mem_singleton.mpr rfl)
        omega
      · exact hz (List.mem_singleton.mp heZ).symm

/-- On a chronological ledger split as `l1 ++ e :: l2` with no records of the
plate after `e`, a Boolean row filter that only accepts rows of the plate and
accepts `e` selects exactly `e` under `ORDER BY timestamp DESC LIMIT 1`. -/
theorem maxByTs_filter_eq {records l1 l2 : List Rec} {e : Rec} {p : String}
    (hc : ChronoOrdered records) (hsplit : records = l1 ++ e :: l2)
    (hl2 : ∀ r ∈ l2, r.plate ≠ p) (q : Rec → Bool)
    (hqe : q e = true) (hq : ∀ x, q x = true → x.plate = p) :
    maxByTs (records.filter q) = some e := by
  apply maxByTs_eq_of_max (chrono_filter hc q)
  · refine List.mem_filter.mpr ⟨?_, hqe⟩
    rw [hsplit]
    exact List.mem_append_right l1 (List.mem_cons_self e l2)
  · intro x hxF hxne
    have hxr : x ∈ records := (List.mem_filter.mp hxF).1
    have hxp : x.plate = p := hq x (List.mem_filter.mp hxF).2
    rw [hsplit] at hxr
    rcases List.mem_append.mp hxr with hx1 | hx2
    · have := (List.pairwise_append.mp (hsplit ▸ hc)).2.2 x hx1 e
        (List.mem_cons_self e l2)
      exact this
    · rcases List.mem_cons.mp hx2 with rfl | hx3
      · exact absurd rfl hxne
      · exact absurd hxp (hl2 x hx3)

/-! ## Decomposition of a parked state -/

theorem stateScan_parked_decomp {p : String} {b : Bool} :
    ∀ {rl : List Rec},
      stateScan p rl = (if b then VState.parkedPaid else VState.parkedUnpaid) →
      ∃ pre e post, rl = pre ++ e :: post ∧ (∀ r ∈ pre, r.plate ≠ p) ∧
        e.plate = p ∧ e.action = Action.entry ∧ e.paid = b := by
  intro rl
  induction rl with
  | nil =>
    intro h
    exfalso
    cases b <;> simp [stateScan] at h
  | cons r rs ih =>
    intro h
    by_cases hp : r.plate = p
    · refine ⟨[], r, rs, rfl, by simp, hp, ?_, ?_⟩
      all_goals
        rw [stateScan, if_pos hp] at h
        cases hact : r.action <;> rw [hact] at h <;>
          cases hpaid : r.paid <;> rw [hpaid] at h <;>
          cases b <;> simp_all
    · rw [stateScan, if_neg hp] at h
      obtain ⟨pre, e, post, hsp, hpre, he1, he2, he3⟩ := ih h
      refine ⟨r :: pre, e, post, by simp [hsp], ?_, he1, he2, he3⟩
      intro x hx
      rcases List.mem_cons.mp hx with rfl | hx2
      · exact hp
      · exact hpre x hx2

theorem currentState_parked_decomp {records : List Rec} {p : String} {b : Bool}
    (h : currentState records p =
      (if b then VState.parkedPaid else VState.parkedUnpaid)) :
    ∃ l1 e l2, records = l1 ++ e :: l2 ∧ (∀ r ∈ l2, r.plate ≠ p) ∧
      e.plate = p ∧ e.action = Action.entry ∧ e.paid = b := by
  obtain ⟨pre, e, post, hsplit, hpre, hp, hact, hpaid⟩ := stateScan_parked_decomp h
  refine ⟨post.reverse, e, pre.reverse, ?_, ?_, hp, hact, hpaid⟩
  · have h2 : records.reverse = pre ++ e :: post := hsplit
    calc records = records.reverse.reverse := (List.reverse_reverse records).symm
      _ = (pre ++ e :: post).reverse := by rw [h2]
      _ = post.reverse ++ e :: pre.reverse := by simp
  · intro r hr
    exact hpre r (List.mem_reverse.mp hr)

/-! ## The later-exit subquery on a well-placed entry -/

theorem laterExitTs_eq_false {records l1 l2 : List Rec} {e : Rec} {p : String}
    (hc : ChronoOrdered records) (hsplit : records = l1 ++ e :: l2)
    (hl2 : ∀ r ∈ l2, r.plate ≠ p) (hact : e.action = Action.entry) :
    laterExitTs records p e = false := by
  unfold laterExitTs
  rw [List.any_eq_false]
  intro x hx
  simp only [decide_eq_true_eq, not_and]
  intro hxp hxe
  rw [hsplit] at hx
  rcases List.mem_append.mp hx with hx1 | hx2
  · have := (List.pairwise_append.mp (hsplit ▸ hc)).2.2 x hx1 e
      (List.mem_cons_self e l2)
    omega
  · rcases List.mem_cons.mp hx2 with rfl | hx3
    · rw [hact] at hxe
      cases hxe
    · exact absurd hxp (hl2 x hx3)

/-! ## List.find? helpers -/

theorem find?_append_of_none {q : Rec → Bool} :
    ∀ (l1 l2 : List Rec), (∀ x ∈ l1, q x = false) →
      (l1 ++ l2).find? q = l2.find? q := by
  intro l1
  induction l1 with
  | nil => intro l2 _; rfl
  | cons a l ih =>
    intro l2 h
    have ha : q a = false := h a (List.mem_cons_self a l)
    rw [List.cons_append, List.find?_cons_of_neg _ (by simp [ha])]
    exact ih l2 (fun x hx => h x (List.mem_cons_of_mem a hx))

theorem find?_reverse_eq (q : Rec → Bool) :
    ∀ l : List Rec, l.reverse.find? q = (l.filter q).getLast? := by
  intro l
  induction l using List.reverseRecOn with
  | nil => rfl
  | append_singleton init a ih =>
    rw [List.reverse_append, List.filter_append]
    by_cases hqa : q a = true
    · simp only [List.reverse_singleton, List.singleton_append,
        List.find?_cons_of_pos _ hqa, List.filter_cons, hqa, if_pos trivial]
      simp [List.getLast?_concat]
    · have hqa2 : q a = false := by simpa using hqa
      rw [List.reverse_singleton, List.singleton_append,
        List.find?_cons_of_neg _ (by simp [hqa2]), ih]
      simp [hqa2]

/-! ## Claim C7: authorized exit round trip -/

/-- Claim C7.  On a chronological ledger where a plate's state is
`parked_paid`, `process_exit` appends exactly one `exit` record whose
`amount_due` is the amount stored on the most recent entry record (fixed at
payment time, not recomputed), opens the gate and returns True, and the
derived state afterwards is `absent`. -/
theorem c7_paid_exit (records : List Rec) (p : String) (t : Nat)
    (hc : ChronoOrdered records)
    (hs : currentState records p = VState.parkedPaid) :
    ∃ e, mostRecentEntryOf records p = some e ∧ e.paid = true ∧
      process_exit_db records p t =
        (records ++ [⟨p, Action.exit, true, t, e.amount⟩], true, true) ∧
      currentState (records ++ [⟨p, Action.exit, true, t, e.amount⟩]) p =
        VState.absent := by
  have hs2 : currentState records p =
      (if true then VState.parkedPaid else VState.parkedUnpaid) := by simpa using hs
  obtain ⟨l1, e, l2, hsplit, hl2, hp, hact, hpaid⟩ := currentState_parked_decomp hs2
  have hqe : qualPaidB records p e = true := by
    unfold qualPaidB
    rw [laterExitTs_eq_false hc hsplit hl2 hact]
    simp [hp, hact, hpaid]
  have hfind : findPaidEntryDB records p = some e := by
    unfold findPaidEntryDB
    refine maxByTs_filter_eq hc hsplit hl2 _ hqe ?_
    intro x hx
    unfold qualPaidB at hx
    rw [Bool.and_eq_true, decide_eq_true_eq] at hx
    exact hx.1.1
  refine ⟨e, ?_, hpaid, ?_, ?_⟩
  · unfold mostRecentEntryOf
    rw [hsplit]
    have hrev : (l1 ++ e :: l2).reverse = l2.reverse ++ e :: l1.reverse := by simp
    rw [hrev, find?_append_of_none l2.reverse (e :: l1.reverse) ?_]
    · exact List.find?_cons_of_pos _ (by simp [hp, hact])
    · intro x hx
      have : x.plate ≠ p := hl2 x (List.mem_reverse.mp hx)
      simp [this]
  · unfold process_exit_db
    rw [hfind]
    simp [hpaid]
  · unfold currentState
    rw [List.reverse_append]
    simp [stateScan]

/-- Witness for `c7_paid_exit`: a one-record ledger holding a paid entry. -/
theorem c7_paid_exit_witness :
    ChronoOrdered [⟨"RA123AB", Action.entry, true, 1, 800⟩] ∧
    currentState [⟨"RA123AB", Action.entry, true, 1, 800⟩] ("RA123AB") =
      VState.parkedPaid ∧
    (∃ e, mostRecentEntryOf [⟨"RA123AB", Action.entry, true, 1, 800⟩] ("RA123AB") =
        some e ∧ e.paid = true ∧
      process_exit_db [⟨"RA123AB", Action.entry, true, 1, 800⟩] ("RA123AB") 5 =
        ([⟨"RA123AB", Action.entry, true, 1, 800⟩,
          ⟨"RA123AB", Action.exit, true, 5, e.amount⟩], true, true) ∧
      currentState
          ([⟨"RA123AB", Action.entry, true, 1, 800⟩] ++
            [⟨"RA123AB", Action.exit, true, 5, e.amount⟩]) ("RA123AB") =
        VState.absent) :=
  ⟨by decide, by decide,
    c7_paid_exit [⟨"RA123AB", Action.entry, true, 1, 800⟩] ("RA123AB") 5
      (by decide) (by decide)⟩

/-! ## Claim C2: unauthorized exit -/

/-- Claim C2, amended.  On a chronological ledger where the plate's state is
`parked_unpaid` and — the hypothesis the counterexample forces — the
paid-entry query finds nothing (no paid entry lacking a later exit),
`process_exit` appends exactly one `unauthorized_exit` record with
`amount_due = 0`, does not open the gate, returns False, and the derived
state afterwards is `absent`.  (The system's own entry-point status query
still reports the unpaid entry afterwards, since its scan skips
`unauthorized_exit` records; see the results notes.) -/
theorem c2_amended (records : List Rec) (p : String) (t : Nat)
    (hc : ChronoOrdered records)
    (hs : currentState records p = VState.parkedUnpaid)
    (hnopaid : findPaidEntryDB records p = none) :
    process_exit_db records p t =
      (records ++ [⟨p, Action.unauthorizedExit, false, t, 0⟩], false, false) ∧
    currentState (records ++ [⟨p, Action.unauthorizedExit, false, t, 0⟩]) p =
      VState.absent := by
  have hs2 : currentState records p =
      (if false then VState.parkedPaid else VState.parkedUnpaid) := by simpa using hs
  obtain ⟨l1, e, l2, hsplit, hl2, hp, hact, hpaid⟩ := currentState_parked_decomp hs2
  have hqe : qualUnpaidB records p e = true := by
    unfold qualUnpaidB
    rw [laterExitTs_eq_false hc hsplit hl2 hact]
    simp [hp, hact, hpaid]
  have hfind : findUnpaidEntryDB records p = some e := by
    unfold findUnpaidEntryDB
    refine maxByTs_filter_eq hc hsplit hl2 _ hqe ?_
    intro x hx
    unfold qualUnpaidB at hx
    rw [Bool.and_eq_true, decide_eq_true_eq] at hx
    exact hx.1.1
  constructor
  · unfold process_exit_db
    rw [hnopaid, hfind]
  · unfold currentState
    rw [List.reverse_append]
    simp [stateScan]

/-- Witness for `c2_amended`: a one-record ledger holding an unpaid entry. -/
theorem c2_amended_witness :
    ChronoOrdered [⟨"RAH972U", Action.entry, false, 3, 0⟩] ∧
    currentState [⟨"RAH972U", Action.entry, false, 3, 0⟩] ("RAH972U") =
      VState.parkedUnpaid ∧
    findPaidEntryDB [⟨"RAH972U", Action.entry, false, 3, 0⟩] ("RAH972U") = none ∧
    (process_exit_db [⟨"RAH972U", Action.entry, false, 3, 0⟩] ("RAH972U") 8 =
      ([⟨"RAH972U", Action.entry, false, 3, 0⟩,
        ⟨"RAH972U", Action.unauthorizedExit, false, 8, 0⟩], false, false) ∧
    currentState
        ([⟨"RAH972U", Action.entry, false, 3, 0⟩] ++
          [⟨"RAH972U", Action.unauthorizedExit, false, 8, 0⟩]) ("RAH972U") =
      VState.absent) :=
  ⟨by decide, by decide, by decide,
    c2_amended [⟨"RAH972U", Action.entry, false, 3, 0⟩] ("RAH972U") 8
      (by decide) (by decide) (by decide)⟩

/-! ## Claim C3: entry denial -/

/-- Claim C3, amended.  On a chronological ledger where the plate's state is
`parked_unpaid`, the entry workflow denies entry: the buzzer alert is the
only action, no record is appended and the gate stays closed.  The
`parked_paid` half of the original claim is refuted by `c3_counterexample`:
the status scan skips paid entries, so a `parked_paid` vehicle is not
reported as inside and entry can be granted. -/
theorem c3_amended (records : List Rec) (p : String) (now : Nat)
    (hc : ChronoOrdered records)
    (hs : currentState records p = VState.parkedUnpaid) :
    entry_step records p now = (records, false) := by
  have hs2 : currentState records p =
      (if false then VState.parkedPaid else VState.parkedUnpaid) := by simpa using hs
  obtain ⟨l1, e, l2, hsplit, hl2, hp, hact, hpaid⟩ := currentState_parked_decomp hs2
  have hlast : lastRecOf records p = some e := by
    unfold lastRecOf
    refine maxByTs_filter_eq hc hsplit hl2 _ (by simp [hp]) ?_
    intro x hx
    simpa using hx
  have hstatus : check_plate_status records records p = some PlateStatus.entry := by
    unfold check_plate_status
    rw [hlast]
    simp [hact, hpaid]
  unfold entry_step
  rw [hstatus]

/-- Witness for `c3_amended`: a one-record ledger holding an unpaid entry. -/
theorem c3_amended_witness :
    ChronoOrdered [⟨"RA555EF", Action.entry, false, 4, 0⟩] ∧
    currentState [⟨"RA555EF", Action.entry, false, 4, 0⟩] ("RA555EF") =
      VState.parkedUnpaid ∧
    entry_step [⟨"RA555EF", Action.entry, false, 4, 0⟩] ("RA555EF") 11 =
      ([⟨"RA555EF", Action.entry, false, 4, 0⟩], false) :=
  ⟨by decide, by decide,
    c3_amended [⟨"RA555EF", Action.entry, false, 4, 0⟩] ("RA555EF") 11
      (by decide) (by decide)⟩

/-! ## Claim C4: backend equivalence -/

theorem check_plate_status_eq_some {db csv : List Rec} {p : String} {r : Rec}
    (h : lastRecOf db p = some r) :
    check_plate_status db csv p =
      (if r.action = Action.entry ∧ r.paid = false then some PlateStatus.entry
       else if r.action = Action.exit then some PlateStatus.exit
       else check_plate_status_csv csv p) := by
  unfold check_plate_status
  rw [h]

theorem check_plate_status_eq_none {db csv : List Rec} {p : String}
    (h : lastRecOf db p = none) :
    check_plate_status db csv p = check_plate_status_csv csv p := by
  unfold check_plate_status
  rw [h]

theorem cps_eq (p : String) :
    ∀ records : List Rec, ChronoOrdered records →
      check_plate_status records records p = check_plate_status_csv records p := by
  intro records
  induction records using List.reverseRecOn with
  | nil => intro _; rfl
  | append_singleton init r ih =>
    intro hc
    have hcinit : ChronoOrdered init :=
      List.Pairwise.sublist (List.sublist_append_left init [r]) hc
    have hrev : (init ++ [r]).reverse = r :: init.reverse := by simp
    by_cases hp : r.plate = p
    · have hfilter : (init ++ [r]).filter (fun x => decide (x.plate = p)) =
          init.filter (fun x => decide (x.plate = p)) ++ [r] := by
        rw [List.filter_append]
        simp [hp]
      have hsorted2 : ChronoOrdered
          (init.filter (fun x => decide (x.plate = p)) ++ [r]) := by
        rw [← hfilter]
        exact chrono_filter hc _
      have hlast : lastRecOf (init ++ [r]) p = some r := by
        unfold lastRecOf
        rw [hfilter, maxByTs_sorted _ hsorted2, List.getLast?_concat]
      rw [check_plate_status_eq_some hlast]
      by_cases h1 : r.action = Action.entry ∧ r.paid = false
      · rw [if_pos h1]
        unfold check_plate_status_csv
        rw [hrev]
        simp [statusScan, hp, h1]
      · by_cases h2 : r.action = Action.exit
        · rw [if_neg h1, if_pos h2]
          unfold check_plate_status_csv
          rw [hrev]
          simp [statusScan, hp, h1, h2]
        · rw [if_neg h1, if_neg h2]
    · have hfilter : (init ++ [r]).filter (fun x => decide (x.plate = p)) =
          init.filter (fun x => decide (x.plate = p)) := by
        rw [List.filter_append]
        simp [hp]
      have hlast2 : lastRecOf (init ++ [r]) p = lastRecOf init p := by
        unfold lastRecOf
        rw [hfilter]
      have hcsv : check_plate_status_csv (init ++ [r]) p =
          check_plate_status_csv init p := by
        unfold check_plate_status_csv
        rw [hrev]
        simp [statusScan, hp]
      cases hinit : lastRecOf init p with
      | none =>
        rw [check_plate_status_eq_none (by rw [hlast2, hinit]), hcsv]
      | some r2 =>
        rw [check_plate_status_eq_some (show lastRecOf (init ++ [r]) p = some r2 by
          rw [hlast2, hinit]), hcsv]
        have hih := ih hcinit
        rw [check_plate_status_eq_some hinit] at hih
        exact hih

theorem exitScanAux_eq_find? (p : String) (records : List Rec)
    (hc : ChronoOrdered records) :
    ∀ (rev after : List Rec), records = rev.reverse ++ after →
      exitScanAux p rev after = rev.find? (qualPaidB records p) := by
  intro rev
  induction rev with
  | nil => intro after _; rfl
  | cons r rs ih =>
    intro after hsplit
    have hsplit2 : records = rs.reverse ++ (r :: after) := by
      rw [hsplit]
      simp
    have hunfold : exitScanAux p (r :: rs) after =
        if r.plate = p ∧ r.action = Action.entry ∧ r.paid = true then
          (if after.any (fun e => decide (e.plate = p ∧ e.action = Action.exit ∧
              r.timestamp < e.timestamp)) then
            exitScanAux p rs (r :: after)
          else some r)
        else exitScanAux p rs (r :: after) := rfl
    by_cases h1 : r.plate = p ∧ r.action = Action.entry ∧ r.paid = true
    · by_cases h2 : after.any (fun e =>
          decide (e.plate = p ∧ e.action = Action.exit ∧ r.timestamp < e.timestamp)) = true
      · have hlater : laterExitTs records p r = true := by
          unfold laterExitTs
          rw [List.any_eq_true] at h2 ⊢
          obtain ⟨e, he, hpe⟩ := h2
          exact ⟨e, by
            rw [hsplit2]
            exact List.mem_append_right _ (List.mem_cons_of_mem r he), hpe⟩
        have hq : qualPaidB records p r = false := by
          unfold qualPaidB
          rw [hlater]
          simp
        rw [List.find?_cons_of_neg _ (by simp [hq]), hunfold, if_pos h1, if_pos h2]
        exact ih (r :: after) hsplit2
      · have h2f : after.any (fun e =>
            decide (e.plate = p ∧ e.action = Action.exit ∧
              r.timestamp < e.timestamp)) = false := by simpa using h2
        have hlater : laterExitTs records p r = false := by
          unfold laterExitTs
          rw [List.any_eq_false]
          intro e he
          rw [hsplit2] at he
          simp only [decide_eq_true_eq, not_and]
          intro hep hee het
          rcases List.mem_append.mp he with h3 | h4
          · have hpw := (List.pairwise_append.mp (hsplit2 ▸ hc)).2.2 e h3 r
              (List.mem_cons_self r after)
            omega
          · rcases List.mem_cons.mp h4 with rfl | h5
            · rw [h1.2.1] at hee
              cases hee
            · have hno := List.any_eq_false.mp h2f e h5
              exact absurd (by simp [hep, hee, het]) hno
        have hq : qualPaidB records p r = true := by
          unfold qualPaidB
          rw [hlater]
          simp [h1]
        rw [List.find?_cons_of_pos _ hq, hunfold, if_pos h1, if_neg h2]
    · have hq : qualPaidB records p r = false := by
        unfold qualPaidB
        simp [h1]
      rw [List.find?_cons_of_neg _ (by simp [hq]), hunfold, if_neg h1]
      exact ih (r :: after) hsplit2

/-- Claim C4.  For every plate and every chronological record sequence (the
append-order invariant of the spec's data model, section 3), replaying the
identical sequence into the relational store and into the CSV journal yields
the same derived answers from either backend: the entry-point status query
(`check_plate_status` against `check_plate_status_csv`) and the exit
requirement query (the SQL paid-entry lookup against
`check_exit_requirements_csv`) agree. -/
theorem c4_backend_equiv (records : List Rec) (p : String)
    (hc : ChronoOrdered records) :
    check_plate_status records records p = check_plate_status_csv records p ∧
    check_exit_requirements_db records p = check_exit_requirements_csv records p := by
  constructor
  · exact cps_eq p records hc
  · unfold check_exit_requirements_db check_exit_requirements_csv
    rw [exitScanAux_eq_find? p records hc records.reverse [] (by simp),
      find?_reverse_eq]
    unfold findPaidEntryDB
    rw [maxByTs_sorted _ (chrono_filter hc _)]

/-- Witness for `c4_backend_equiv`: a two-record ledger (paid entry, then
exit). -/
theorem c4_backend_equiv_witness :
    ChronoOrdered [⟨"RA777GH", Action.entry, true, 1, 500⟩,
      ⟨"RA777GH", Action.exit, true, 2, 500⟩] ∧
    (check_plate_status
        [⟨"RA777GH", Action.entry, true, 1, 500⟩, ⟨"RA777GH", Action.exit, true, 2, 500⟩]
        [⟨"RA777GH", Action.entry, true, 1, 500⟩, ⟨"RA777GH", Action.exit, true, 2, 500⟩]
        ("RA777GH") =
      check_plate_status_csv
        [⟨"RA777GH", Action.entry, true, 1, 500⟩, ⟨"RA777GH", Action.exit, true, 2, 500⟩]
        ("RA777GH") ∧
    check_exit_requirements_db
        [⟨"RA777GH", Action.entry, true, 1, 500⟩, ⟨"RA777GH", Action.exit, true, 2, 500⟩]
        ("RA777GH") =
      check_exit_requirements_csv
        [⟨"RA777GH", Action.entry, true, 1, 500⟩, ⟨"RA777GH", Action.exit, true, 2, 500⟩]
        ("RA777GH")) :=
  ⟨by decide,
    c4_backend_equiv
      [⟨"RA777GH", Action.entry, true, 1, 500⟩, ⟨"RA777GH", Action.exit, true, 2, 500⟩]
      ("RA777GH") (by decide)⟩

/-! ## Claim C1: billing -/

/-- Claim C1, counterexample.  The spec says the fee is
`ceil(elapsed hours) * rate`, so 61 minutes (3660 s) should cost two hours
(`2 * RATE_PER_HOUR = 1000`); `calculate_payment_amount` uses Python's
truncating `int(seconds / 3600)`, a floor, and charges one hour (500). -/
theorem c1_counterexample : calculate_payment_amount 0 3660 ≠ 2 * RATE_PER_HOUR := by
  decide

/-- Claim C1, amended.  For `now ≥ entry_time` the billing functions of
payment_success.py and process_payment.py return
`max(1, floor(elapsed seconds / 3600)) * rate`: the fee at zero elapsed time
is one hour's rate, the fee at 61 elapsed minutes is still one hour's rate
(not two, as the spec's ceiling would give), and the fee is non-decreasing in
the elapsed duration. -/
theorem c1_amended (t n1 n2 rate : Nat) (h1 : t ≤ n1) (h2 : n1 ≤ n2) :
    fee t t rate = rate ∧ fee t (t + 3660) rate = rate ∧
      fee t n1 rate ≤ fee t n2 rate := by
  refine ⟨?_, ?_, ?_⟩
  · simp [fee, Nat.sub_self]
  · have h : t + 3660 - t = 3660 := by omega
    simp [fee, h]
  · unfold fee
    exact Nat.mul_le_mul
      (max_le_max (le_refl 1) (Nat.div_le_div_right (by omega)))
      (le_refl rate)

/-- Witness for `c1_amended` at `t = 0`, `n1 = 0`, `n2 = 3660`, `rate = 500`. -/
theorem c1_amended_witness :
    (0 : Nat) ≤ 0 ∧ (0 : Nat) ≤ 3660 ∧
      (fee 0 0 500 = 500 ∧ fee 0 3660 500 = 500 ∧ fee 0 0 500 ≤ fee 0 3660 500) :=
  ⟨le_refl 0, by decide, c1_amended 0 0 3660 500 (le_refl 0) (by decide)⟩

/-! ## Claim C5: dual-store write path -/

/-- Claim C5.  The claim (and the docstring of `mark_entry_as_paid`, "in both
database and CSV") says every mutation always reaches the flat-file journal.
On the failing input — a reachable relational store holding an unpaid entry
for RAH972U — `mark_entry_as_paid` reports success and updates the relational
store, yet leaves the CSV journal untouched: the payment mutation never
reaches the journal when the relational write succeeds. -/
theorem c5_journal_skipped :
    (mark_entry_as_paid
        ⟨true, [⟨"RAH972U", Action.entry, false, 2, 0⟩],
          [⟨"RAH972U", Action.entry, false, 2, 0⟩]⟩ ("RAH972U") 500).1 = true ∧
    (mark_entry_as_paid
        ⟨true, [⟨"RAH972U", Action.entry, false, 2, 0⟩],
          [⟨"RAH972U", Action.entry, false, 2, 0⟩]⟩ ("RAH972U") 500).2.dbRecs =
      [⟨"RAH972U", Action.entry, true, 2, 500⟩] ∧
    (mark_entry_as_paid
        ⟨true, [⟨"RAH972U", Action.entry, false, 2, 0⟩],
          [⟨"RAH972U", Action.entry, false, 2, 0⟩]⟩ ("RAH972U") 500).2.csvRecs =
      [⟨"RAH972U", Action.entry, false, 2, 0⟩] := by
  decide

/-! ## Claim C9: gate close after the hold period -/

/-- Claim C9, counterexample.  In simulation mode (no channel attached) the
exit path's `control_gate(arduino, 'open')` logs only the open intent and
returns True: no close command is sent or logged after the hold period, so
the close is not unconditional. -/
theorem c9_counterexample :
    (control_gate false true Cmd.openGate).1 = [Cmd.openGate] ∧
    (control_gate false true Cmd.openGate).2 = true := by
  decide

/-- Claim C9, amended.  With a channel attached, `control_gate('open')` sends
close after the 15 s hold unconditionally — in particular also when the
acknowledgment read produced no response (`responds = false`).  In simulation
mode the standalone open of the exit path logs no close (the counterexample),
but the entry path's `log_action` issues a separate close call, so its gate
phase contains a close in both modes. -/
theorem c9_amended (hasChannel responds : Bool) :
    (control_gate true responds Cmd.openGate).1 = [Cmd.openGate, Cmd.closeGate] ∧
    Cmd.closeGate ∈ entry_gate_phase hasChannel responds := by
  cases hasChannel <;> cases responds <;> decide

/-! ## Claim C10: insufficient balance -/

/-- Claim C10.  When an unpaid entry is found and the card balance is strictly
below the stored amount due, the payment loop replies `ERROR:INSUFFICIENT` and
leaves both stores untouched; and whenever the device response is not `DONE`,
no store mutation happens either (the update runs only after `DONE`). -/
theorem c10_insufficient (s : Stores) (p : String) (balance : Nat)
    (response : String) (t amt : Nat)
    (hfind : find_unpaid_entry s.dbRecs p = some (t, amt)) :
    (balance < amt → payment_iteration s p balance response = (s, [Reply.errorInsufficient])) ∧
    (response ≠ "DONE" → (payment_iteration s p balance response).1 = s) := by
  unfold payment_iteration
  rw [hfind]
  constructor
  · intro hb
    simp [hb]
  · intro hr
    by_cases hb : balance < amt
    · simp [hb]
    · simp [hb, hr]

/-- Witness for `c10_insufficient`: a store holding an unpaid entry with
amount due 900 and a card balance of 100. -/
theorem c10_insufficient_witness :
    find_unpaid_entry
        (Stores.mk true [⟨"RA123AB", Action.entry, false, 2, 900⟩]
          [⟨"RA123AB", Action.entry, false, 2, 900⟩]).dbRecs ("RA123AB") =
      some (2, 900) ∧
    payment_iteration
        (Stores.mk true [⟨"RA123AB", Action.entry, false, 2, 900⟩]
          [⟨"RA123AB", Action.entry, false, 2, 900⟩]) ("RA123AB") 100 ("TIMEOUT") =
      (Stores.mk true [⟨"RA123AB", Action.entry, false, 2, 900⟩]
          [⟨"RA123AB", Action.entry, false, 2, 900⟩], [Reply.errorInsufficient]) :=
  ⟨by decide,
    (c10_insufficient
        (Stores.mk true [⟨"RA123AB", Action.entry, false, 2, 900⟩]
          [⟨"RA123AB", Action.entry, false, 2, 900⟩]) ("RA123AB") 100 ("TIMEOUT")
        2 900 (by decide)).1 (by decide)⟩

/-! ## Closed counterexamples for claims C2, C3, C6, C8 -/

/-- Claim C2, counterexample.  A chronological ledger whose most recent entry
for RAH972U is unpaid (state `parked_unpaid`) but which also holds an older
paid entry with no later exit: `process_exit` finds the old paid entry first,
appends an `exit` record and opens the gate, instead of appending an
`unauthorized_exit` record with the gate closed. -/
theorem c2_counterexample :
    currentState
        [⟨"RAH972U", Action.entry, true, 0, 500⟩, ⟨"RAH972U", Action.entry, false, 10, 0⟩]
        ("RAH972U") = VState.parkedUnpaid ∧
    (process_exit_db
        [⟨"RAH972U", Action.entry, true, 0, 500⟩, ⟨"RAH972U", Action.entry, false, 10, 0⟩]
        ("RAH972U") 20).2.1 = true ∧
    (process_exit_db
        [⟨"RAH972U", Action.entry, true, 0, 500⟩, ⟨"RAH972U", Action.entry, false, 10, 0⟩]
        ("RAH972U") 20).1 =
      [⟨"RAH972U", Action.entry, true, 0, 500⟩, ⟨"RAH972U", Action.entry, false, 10, 0⟩,
        ⟨"RAH972U", Action.exit, true, 20, 500⟩] := by
  decide

/-- Claim C3, counterexample.  A ledger where RAH972U is `parked_paid` (one
paid entry, no exit): the entry status scan skips paid entries, reports no
unclosed entry, and the entry workflow appends a fresh entry record and opens
the gate instead of denying with an alert. -/
theorem c3_counterexample :
    currentState [⟨"RAH972U", Action.entry, true, 0, 700⟩] ("RAH972U") =
      VState.parkedPaid ∧
    (entry_step [⟨"RAH972U", Action.entry, true, 0, 700⟩] ("RAH972U") 9).2 = true ∧
    (entry_step [⟨"RAH972U", Action.entry, true, 0, 700⟩] ("RAH972U") 9).1 =
      [⟨"RAH972U", Action.entry, true, 0, 700⟩,
        ⟨"RAH972U", Action.entry, false, 9, 0⟩] := by
  decide

/-! ## Claim C6: plate validation -/

theorem startsRA_decomp {l : List Char} (h : startsRA l = true) :
    ∃ rest, l = 'R' :: 'A' :: rest := by
  cases l with
  | nil => cases h
  | cons a l2 =>
    cases l2 with
    | nil => cases h
    | cons b l3 =>
      have hab : (a == 'R' && b == 'A') = true := h
      rw [Bool.and_eq_true, beq_iff_eq, beq_iff_eq] at hab
      exact ⟨l3, by rw [hab.1, hab.2]⟩

/-- Claim C6, amended.  On inputs of length exactly 7 the claimed
characterization is right: `validate_plate` accepts precisely the strings
with prefix `RA`, a tail drawn from the OCR alphabet `A-Z0-9`, and at least
2 digits among the trailing 5 characters.  On longer inputs the function
instead searches for an embedded `RA`-anchored 7-character candidate
(`c6_counterexample`), so the length-7 premise is what the counterexample
forces. -/
theorem c6_amended (text : List Char) (hlen : text.length = 7) :
    ((validate_plate text).isSome = true ↔ specAccept text) := by
  by_cases hra : startsRA text = true
  · obtain ⟨rest, rfl⟩ := startsRA_decomp hra
    have hrest : rest.length = 5 := by simpa using hlen
    have hfind : findRA ('R' :: 'A' :: rest) = some 0 := by
      unfold findRA
      rw [if_pos hra]
    have hcand : (('R' :: 'A' :: rest).drop 0).take PLATE_LENGTH =
        'R' :: 'A' :: rest := by
      rw [List.drop_zero, show (PLATE_LENGTH : Nat) = ('R' :: 'A' :: rest).length by
        simp [PLATE_LENGTH, hrest]]
      exact List.take_length _
    unfold validate_plate
    rw [hfind]
    simp only [hcand]
    simp only [PLATE_LENGTH, hrest, regexRA5, specAccept, startsRA,
      List.all_eq_true, Nat.not_lt]
    by_cases hall : ∀ c ∈ rest, isUpperAlnum c = true
    · by_cases hcount : 2 ≤ (rest.filter isDigitCh).length
      · simp [hall, hcount, hrest, Nat.not_lt.mpr hcount]
      · simp only [Nat.not_le] at hcount
        simp [hall, hcount, hrest, Nat.not_le.mpr hcount]
    · have hex : ∃ x ∈ rest, isUpperAlnum x = false := by
        push_neg at hall
        obtain ⟨x, hx, hxf⟩ := hall
        exact ⟨x, hx, by simpa using hxf⟩
      simp [hex, hall, hrest]
  · have hspec : ¬ specAccept text := by
      rintro ⟨h1, h2, h3, h4⟩
      exact hra h2
    have hnone : validate_plate text = none := by
      unfold validate_plate
      cases text with
      | nil => rfl
      | cons c cs =>
        have hcs : cs.length = 6 := by simpa using hlen
        have hfind : findRA (c :: cs) = (findRA cs).map (fun i => i + 1) := by
          show (if startsRA (c :: cs) = true then some 0
            else (findRA cs).map (fun i => i + 1)) = (findRA cs).map (fun i => i + 1)
          rw [if_neg hra]
        rw [hfind]
        cases hf2 : findRA cs with
        | none => rfl
        | some i =>
          have hlength : (((c :: cs).drop (i + 1)).take PLATE_LENGTH).length ≠
              PLATE_LENGTH := by
            simp only [List.length_take, List.length_drop, List.length_cons, hcs,
              PLATE_LENGTH]
            omega
          have hmap : (some i).map (fun j => j + 1) = some (i + 1) := rfl
          rw [hmap]
          simp [hlength]
          intro h7 _
          exfalso
          rw [hcs] at h7
          simp only [PLATE_LENGTH] at h7
          omega
    rw [hnone]
    simp [hspec]

/-- Witness for `c6_amended` at the 7-character input `RAH972U`. -/
theorem c6_amended_witness :
    ([ 'R', 'A', 'H', '9', '7', '2', 'U' ] : List Char).length = 7 ∧
    ((validate_plate [ 'R', 'A', 'H', '9', '7', '2', 'U' ]).isSome = true ↔
      specAccept [ 'R', 'A', 'H', '9', '7', '2', 'U' ]) :=
  ⟨by decide, c6_amended [ 'R', 'A', 'H', '9', '7', '2', 'U' ] (by decide)⟩

/-- Claim C6, counterexample.  The input `XRAH972U` has length 8 and does not
start with `RA`, so by the claim it must be rejected; `validate_plate` locates
`RA` at index 1, slices the 7-character candidate `RAH972U`, and accepts. -/
theorem c6_counterexample :
    (validate_plate [ 'X', 'R', 'A', 'H', '9', '7', '2', 'U' ]).isSome = true ∧
    ¬ specAccept [ 'X', 'R', 'A', 'H', '9', '7', '2', 'U' ] := by
  decide

/-! ## Claim C8: buffer dynamics -/

theorem mcFold_some (l : List String) :
    ∀ (m : List String) (yc : String × Nat),
      (m.foldl (mcStep l) (some yc)).isSome = true := by
  intro m
  induction m with
  | nil => intro yc; rfl
  | cons a m2 ih =>
    intro yc
    rw [List.foldl_cons]
    have h2 : ∃ yc2, mcStep l (some yc) a = some yc2 := by
      unfold mcStep
      by_cases hlt : yc.2 < l.count a
      · exact ⟨_, if_pos hlt⟩
      · exact ⟨_, if_neg hlt⟩
    obtain ⟨yc2, h2⟩ := h2
    rw [h2]
    exact ih yc2

theorem mcFold_char (l : List String) :
    ∀ (m : List String) (acc : Option (String × Nat)),
      (∀ x ∈ m, x ∈ l) →
      (acc = none ∨ ∃ y, acc = some (y, l.count y) ∧ y ∈ l) →
      (m.foldl (mcStep l) acc = none ∨
        ∃ y, m.foldl (mcStep l) acc = some (y, l.count y) ∧ y ∈ l) := by
  intro m
  induction m with
  | nil => intro acc _ hacc; exact hacc
  | cons a m2 ih =>
    intro acc hm hacc
    rw [List.foldl_cons]
    apply ih
    · intro x hx
      exact hm x (List.mem_cons_of_mem a hx)
    · have ha : a ∈ l := hm a (List.mem_cons_self a m2)
      right
      rcases hacc with rfl | ⟨y, rfl, hy⟩
      · exact ⟨a, rfl, ha⟩
      · have h2 : mcStep l (some (y, l.count y)) a = some (a, l.count a) ∨
            mcStep l (some (y, l.count y)) a = some (y, l.count y) := by
          unfold mcStep
          by_cases hlt : (y, l.count y).2 < l.count a
          · exact Or.inl (if_pos hlt)
          · exact Or.inr (if_neg hlt)
        rcases h2 with h2 | h2 <;> rw [h2]
        · exact ⟨a, rfl, ha⟩
        · exact ⟨y, rfl, hy⟩

theorem mostCommon_char (l : List String) (hne : l ≠ []) :
    ∃ y, mostCommon l = some (y, l.count y) ∧ y ∈ l := by
  rcases mcFold_char l l none (fun x hx => hx) (Or.inl rfl) with h0 | h1
  · exfalso
    cases l with
    | nil => exact hne rfl
    | cons a m =>
      have hs : (mostCommon (a :: m)).isSome = true :=
        mcFold_some (a :: m) m (a, (a :: m).count a)
      rw [show ((a :: m).foldl (mcStep (a :: m)) none = mostCommon (a :: m)) from rfl]
        at h0
      rw [h0] at hs
      cases hs
  · exact h1

/-- A validated detection that does not produce a majority of 3 only appends
to the buffer: when the buffer stays duplicate-free every count is at most 1,
so the processing branch never fires and nothing is cleared. -/
theorem entryLoopStep_no_majority (st : EntryLoopState) (plate : String) (now : Nat)
    (h : (st.buf ++ [plate]).Nodup) :
    entryLoopStep st plate now =
      ⟨st.records, st.buf ++ [plate], st.lastPlate, st.lastTime⟩ := by
  unfold entryLoopStep
  by_cases hlen : 3 ≤ (st.buf ++ [plate]).length
  · obtain ⟨y, hmc, hy⟩ := mostCommon_char (st.buf ++ [plate]) (by simp)
    have hcnt := List.nodup_iff_count_le_one.mp h y
    have hncond : ¬ (3 ≤ (st.buf ++ [plate]).count y ∧
        (some y ≠ st.lastPlate ∨ 5 < now - st.lastTime)) := by
      rintro ⟨h3, _⟩
      omega
    simp only [if_pos hlen, hmc, if_neg hncond]
  · simp only [if_neg hlen]

theorem runEntryLoop_buf_aux :
    ∀ (obs : List (String × Nat)) (st : EntryLoopState),
      (st.buf ++ obs.map Prod.fst).Nodup →
      (obs.foldl (fun s o => entryLoopStep s o.1 o.2) st).buf =
        st.buf ++ obs.map Prod.fst := by
  intro obs
  induction obs with
  | nil => intro st _; simp
  | cons o rest ih =>
    intro st hnd
    have hnd2 : ((st.buf ++ [o.1]) ++ rest.map Prod.fst).Nodup := by
      simpa [List.append_assoc] using hnd
    have hnd1 : (st.buf ++ [o.1]).Nodup :=
      List.Nodup.sublist (List.sublist_append_left _ _) hnd2
    rw [List.foldl_cons, entryLoopStep_no_majority st o.1 o.2 hnd1,
      ih ⟨st.records, st.buf ++ [o.1], st.lastPlate, st.lastTime⟩ hnd2]
    simp

/-- Claim C8, amended.  The buffer is not bounded by 3: it is cleared only
when a processing step fires (some plate reaching count 3 with the repeat
gate open).  Along any run of pairwise-distinct validated candidates no
majority of 3 ever forms, nothing fires, and the buffer holds one entry per
observation — so its size equals the number of observations and exceeds 3 as
soon as there are more than 3. -/
theorem c8_amended (records : List Rec) (obs : List (String × Nat))
    (hnd : (obs.map Prod.fst).Nodup) :
    (runEntryLoop records obs).buf = obs.map Prod.fst := by
  have h := runEntryLoop_buf_aux obs (initLoopState records) (by simpa using hnd)
  simpa [runEntryLoop] using h

/-- Witness for `c8_amended`: four distinct plates leave a buffer of four. -/
theorem c8_amended_witness :
    ((["RA111AA", "RA222BB", "RA333CC", "RA444DD"] : List String).Nodup) ∧
    (runEntryLoop []
        [("RA111AA", 0), ("RA222BB", 1), ("RA333CC", 2), ("RA444DD", 3)]).buf =
      ["RA111AA", "RA222BB", "RA333CC", "RA444DD"] :=
  ⟨by decide,
    c8_amended []
      [("RA111AA", 0), ("RA222BB", 1), ("RA333CC", 2), ("RA444DD", 3)] (by decide)⟩

/-- Claim C8, counterexample.  Four distinct validated plates never reach a
majority count of 3, so no processing step fires and nothing clears the
buffer: after the fourth observation the buffer holds 4 entries, exceeding
the claimed capacity of 3. -/
theorem c8_counterexample :
    (runEntryLoop []
        [("RA111AA", 0), ("RA222BB", 1), ("RA333CC", 2), ("RA444DD", 3)]).buf =
      ["RA111AA", "RA222BB", "RA333CC", "RA444DD"] ∧
    3 < (runEntryLoop []
        [("RA111AA", 0), ("RA222BB", 1), ("RA333CC", 2), ("RA444DD", 3)]).buf.length := by
  decide

end Parking
